import Mathlib

/-!
Shallow embedding of `src/form.py` (class `MyForm`), a reflection-based
form binder over SQLAlchemy-style column metadata.  Python run-time
values are modelled by `PyVal` (floats as rationals, dates as explicit
year/month/day triples), the dynamically created form attributes and the
model instance by ordered association lists over `String`, and the three
operations `post` (bind from request), `get` (bind from instance) and
`html_tag`'s inner `generate_tag` (render one field) are translated
branch by branch from the source.  Failure (Python `ValueError` /
`TypeError` / `AttributeError`) is modelled with `Except`.
-/

namespace MyForm

/-- Column kinds as classified by `get_columns`: a column carrying a
foreign key reports `foreignKey` regardless of its underlying type;
every other column reports its SQLAlchemy type class. -/
inductive ColKind where
  | stringT | integerT | floatT | dateT | foreignKey | otherT
deriving DecidableEq

/-- Python run-time values flowing through the binder.  `pFloat` uses
rationals in place of IEEE doubles; no claim exercises float rounding. -/
inductive PyVal where
  | pStr : String → PyVal
  | pInt : Int → PyVal
  | pFloat : Rat → PyVal
  | pDate : Nat → Nat → Nat → PyVal
  | pNone : PyVal
deriving DecidableEq

/-- Python truthiness of a `PyVal` (`if value:`). -/
def PyVal.truthy : PyVal → Bool
  | .pStr s => s != ""
  | .pInt n => n != 0
  | .pFloat q => decide (q ≠ 0)
  | .pDate _ _ _ => true
  | .pNone => false

/-- Errors raised by the binder: `parseError` models Python `ValueError`
from `int()` / `float()` / `strptime`, `typeError` a `TypeError` from a
coercion applied to a value of the wrong class, `attributeError` a
missing attribute on the model instance. -/
inductive BindError where
  | parseError | typeError | attributeError
deriving DecidableEq

/-- First-match lookup in an ordered association list; models both
Python dict lookup (dict keys are unique) and `getattr`. -/
def lookupKey {α : Type} (m : List (String × α)) (k : String) : Option α :=
  match m with
  | [] => none
  | (k', v) :: rest => if k' = k then some v else lookupKey rest k

/-- Update-or-append on an ordered association list; models `setattr`
(overwrite an existing attribute, otherwise create a new one). -/
def setKey {α : Type} (m : List (String × α)) (k : String) (v : α) : List (String × α) :=
  match m with
  | [] => [(k, v)]
  | (k', v') :: rest => if k' = k then (k, v) :: rest else (k', v') :: setKey rest k v

/-- Remove the entry with the given key, if any; models `dict.pop`. -/
def eraseKey {α : Type} (m : List (String × α)) (k : String) : List (String × α) :=
  match m with
  | [] => []
  | (k', v) :: rest => if k' = k then rest else (k', v) :: eraseKey rest k

/-- Request data: ordered key/value pairs; `lookupKey` plays the role of
`request.form.get` (returning `none` when the key is absent). -/
abbrev Req := List (String × String)

/-- Python truthiness of `request.form.get`'s result (`None` and the
empty string are falsy). -/
def truthyOpt : Option String → Bool
  | some s => s != ""
  | none => false

/-- A raw request value stored without coercion (`setattr(self, "id",
request.form.get(html_name))`): the string itself, or `None`. -/
def strOrNone : Option String → PyVal
  | some s => .pStr s
  | none => .pNone

/-- Strip leading and trailing whitespace (Python `int`/`float` accept
surrounding whitespace). -/
def trimChars (l : List Char) : List Char :=
  ((l.dropWhile Char.isWhitespace).reverse.dropWhile Char.isWhitespace).reverse

/-- Nonempty and all ASCII digits. -/
def allDigits (l : List Char) : Bool :=
  !l.isEmpty && l.all Char.isDigit

/-- Value of a digit string. -/
def digitsVal (l : List Char) : Nat :=
  l.foldl (fun a c => a * 10 + (c.toNat - 48)) 0

/-- Model of Python `int(text)`: optional sign followed by digits,
surrounding whitespace ignored; anything else raises `ValueError`
(returns `none`).  Underscore separators and non-ASCII digits are out of
scope. -/
def pyParseInt (s : String) : Option Int :=
  match trimChars s.toList with
  | '-' :: rest => if allDigits rest then some (-(digitsVal rest : Int)) else none
  | '+' :: rest => if allDigits rest then some ((digitsVal rest : Int)) else none
  | l => if allDigits l then some ((digitsVal l : Int)) else none

/-- Split a character list on a separator character; models
`str.split` with a single-character separator as used by the date
parser below. -/
def splitOnChar (c : Char) : List Char → List (List Char)
  | [] => [[]]
  | a :: rest =>
    if a = c then [] :: splitOnChar c rest
    else
      match splitOnChar c rest with
      | [] => [[a]]
      | g :: gs => (a :: g) :: gs

/-- Gregorian leap year. -/
def isLeap (y : Nat) : Bool :=
  (y % 4 == 0 && y % 100 != 0) || y % 400 == 0

/-- Days in a month. -/
def daysInMonth (y m : Nat) : Nat :=
  if m = 2 then (if isLeap y then 29 else 28)
  else if m = 4 || m = 6 || m = 9 || m = 11 then 30
  else 31

/-- The `%m` field of CPython's `_strptime`: one or two digits whose
value lies in 1..12 (the regex `1[0-2]|0[1-9]|[1-9]`); no space
padding. -/
def monthField (l : List Char) : Option Nat :=
  if allDigits l && decide (l.length ≤ 2) && decide (1 ≤ digitsVal l)
      && decide (digitsVal l ≤ 12) then
    some (digitsVal l)
  else none

/-- The `%d` field of CPython's `_strptime`: one or two digits whose
value lies in 1..31, or a space followed by a nonzero digit (the regex
`3[01]|[12]\d|0[1-9]|[1-9]| [1-9]`). -/
def dayField (l : List Char) : Option Nat :=
  if allDigits l && decide (l.length ≤ 2) && decide (1 ≤ digitsVal l)
      && decide (digitsVal l ≤ 31) then
    some (digitsVal l)
  else
    match l with
    | [' ', c] => if c.isDigit && c != '0' then some (c.toNat - 48) else none
    | _ => none

/-- Model of Python `datetime.strptime(text, "%Y-%m-%d").date()`: the
year field is exactly four digits (`%Y` is `\d\d\d\d`), the month and
day fields as above, joined by literal dashes with the whole string
consumed; the parsed values are then validated as the `datetime`
constructor does (year at least 1, day at most the month's length).
Any other text raises `ValueError` (returns `none`). -/
def pyStrptimeDate (s : String) : Option (Nat × Nat × Nat) :=
  match splitOnChar '-' s.toList with
  | [ys, ms, ds] =>
    if allDigits ys && decide (ys.length = 4) then
      match monthField ms, dayField ds with
      | some m, some d =>
        let y := digitsVal ys
        if decide (1 ≤ y) && decide (d ≤ daysInMonth y m) then some (y, m, d) else none
      | _, _ => none
    else none
  | _ => none

/-- Model of Python `float(text)`: optional sign, then digits with an
optional decimal point (one side of the point may be empty, not both);
exponent notation, `inf` and `nan` are out of scope (no claim exercises
them). -/
def pyParseFloat (s : String) : Option Rat :=
  let t := trimChars s.toList
  let sign : Rat := if t.head? = some '-' then -1 else 1
  let core : List Char :=
    match t with
    | '-' :: rest => rest
    | '+' :: rest => rest
    | l => l
  match splitOnChar '.' core with
  | [w] => if allDigits w then some (sign * (digitsVal w : Rat)) else none
  | [w, f] =>
    if (w.isEmpty && allDigits f) || (allDigits w && f.isEmpty) || (allDigits w && allDigits f) then
      some (sign * ((digitsVal w : Rat) + (digitsVal f : Rat) / ((10 : Rat) ^ f.length)))
    else none
  | _ => none

/-- Model of Python `int(value)` applied to a `PyVal` (used by `get`):
floats truncate toward zero, strings parse as integers, dates and `None`
raise `TypeError`. -/
def pyIntOf : PyVal → Except BindError Int
  | .pInt n => .ok n
  | .pFloat q => .ok (q.num.tdiv (q.den : Int))
  | .pStr s =>
    match pyParseInt s with
    | some n => .ok n
    | none => .error .parseError
  | .pDate _ _ _ => .error .typeError
  | .pNone => .error .typeError

/-- Model of Python `float(value)` applied to a `PyVal`. -/
def pyFloatOf : PyVal → Except BindError Rat
  | .pFloat q => .ok q
  | .pInt n => .ok (n : Rat)
  | .pStr s =>
    match pyParseFloat s with
    | some q => .ok q
    | none => .error .parseError
  | .pDate _ _ _ => .error .typeError
  | .pNone => .error .typeError

/-- Initial attribute values created by `_create_attributes_from_model`:
the empty string for `String`-typed columns, the integer `0` for every
other column (including foreign keys, whose kind is the *string*
`'ForeignKey'`, not a `String` column type). -/
def create_attributes_from_model (cols : List (String × ColKind)) : List (String × PyVal) :=
  cols.map (fun c => (c.1, if c.2 = ColKind.stringT then PyVal.pStr "" else PyVal.pInt 0))

/-- The request key read for a column in `post`: the column name
suffixed with `-<i>` when an index `i > -1` was supplied, the bare name
otherwise. -/
def htmlName (name : String) (i : Int) : String :=
  if (-1 : Int) < i then name ++ "-" ++ toString i else name

/-- Kind-directed coercion of one request value in `post` (lines 56-77
of `form.py`).  The request value is a string or absent; the branch
order (ForeignKey, Date, Float, Integer, String, other) follows the
source. -/
def coerceRequest (k : ColKind) (value : Option String) : Except BindError PyVal :=
  match k with
  | .foreignKey =>
    match value with
    | some s =>
      if s != "" then
        match pyParseInt s with
        | some n => .ok (.pInt n)
        | none => .error .parseError
      else .ok .pNone
    | none => .ok .pNone
  | .dateT =>
    match value with
    | some s =>
      if s != "" then
        match pyStrptimeDate s with
        | some (y, m, d) => .ok (.pDate y m d)
        | none => .error .parseError
      else .ok .pNone
    | none => .ok .pNone
  | .floatT =>
    match value with
    | some s =>
      if s != "" then
        match pyParseFloat s with
        | some q => .ok (.pFloat q)
        | none => .error .parseError
      else .ok .pNone
    | none => .ok .pNone
  | .integerT =>
    match value with
    | some s =>
      if s != "" then
        match pyParseInt s with
        | some n => .ok (.pInt n)
        | none => .error .parseError
      else .ok .pNone
    | none => .ok .pNone
  | .stringT => .ok (strOrNone value)
  | .otherT => .ok (strOrNone value)

/-- Mutable state threaded through `post`: the form's field-value
mapping (`self`'s dynamic attributes) and the model instance's
attributes. -/
structure BindState where
  fields : List (String × PyVal)
  inst : List (String × PyVal)
deriving DecidableEq

/-- One iteration of the `post` loop.  The identity column is special:
when the *unsuffixed* key `record_id` holds a truthy value, the value
found under the (possibly suffixed) key is stored on the form only, and
the instance is never written; otherwise the loop moves on.  Every other
column reads its (possibly suffixed) key and writes the coerced value to
both the instance and the form. -/
def postStep (req : Req) (i : Int) (st : BindState) (col : String × ColKind) :
    Except BindError BindState :=
  if col.1 = "id" then
    if truthyOpt (lookupKey req "record_id") then
      .ok { st with fields := setKey st.fields "id" (strOrNone (lookupKey req (htmlName "record_id" i))) }
    else .ok st
  else
    match coerceRequest col.2 (lookupKey req (htmlName col.1 i)) with
    | .ok v => .ok { fields := setKey st.fields col.1 v, inst := setKey st.inst col.1 v }
    | .error e => .error e

/-- `MyForm.post(request, instance, i)`: fold the loop body over the
column descriptors in order; a raised coercion error aborts the call. -/
def post (cols : List (String × ColKind)) (req : Req) (i : Int) (st : BindState) :
    Except BindError BindState :=
  match cols with
  | [] => .ok st
  | col :: rest =>
    match postStep req i st col with
    | .ok st' => post rest req i st'
    | .error e => .error e

/-- Kind-directed coercion of one instance value in `get` (lines 85-101
of `form.py`).  A date-typed value passes through the Date branch
unchanged; otherwise falsy values become `None` and truthy values are
coerced (which may raise). -/
def coerceInstance (k : ColKind) (v : PyVal) : Except BindError PyVal :=
  match k with
  | .foreignKey =>
    if v.truthy then (pyIntOf v).map .pInt else .ok .pNone
  | .dateT =>
    match v with
    | .pDate y m d => .ok (.pDate y m d)
    | .pStr s =>
      if s != "" then
        match pyStrptimeDate s with
        | some (y, m, d) => .ok (.pDate y m d)
        | none => .error .parseError
      else .ok .pNone
    | w => if w.truthy then .error .typeError else .ok .pNone
  | .floatT =>
    if v.truthy then (pyFloatOf v).map .pFloat else .ok .pNone
  | .integerT =>
    if v.truthy then (pyIntOf v).map .pInt else .ok .pNone
  | .stringT => .ok v
  | .otherT => .ok v

/-- One iteration of the `get` loop: read the instance attribute
(`getattr` raises when it is missing) and store the coerced value on the
form. -/
def getStep (inst : List (String × PyVal)) (fields : List (String × PyVal))
    (col : String × ColKind) : Except BindError (List (String × PyVal)) :=
  match lookupKey inst col.1 with
  | none => .error .attributeError
  | some value =>
    match coerceInstance col.2 value with
    | .ok v => .ok (setKey fields col.1 v)
    | .error e => .error e

/-- `MyForm.get(instance)`: fold the loop body over the column
descriptors in order, returning the updated field-value mapping. -/
def get (cols : List (String × ColKind)) (inst : List (String × PyVal))
    (fields : List (String × PyVal)) : Except BindError (List (String × PyVal)) :=
  match cols with
  | [] => .ok fields
  | col :: rest =>
    match getStep inst fields col with
    | .ok fields' => get rest inst fields'
    | .error e => .error e

/-- Attribute values a caller can pass to `generate_tag` as keyword
arguments: strings, booleans, integers, `None` (skipped when rendering)
and the `options` list of (value, label) pairs for select fields. -/
inductive AttrVal where
  | aStr : String → AttrVal
  | aBool : Bool → AttrVal
  | aInt : Int → AttrVal
  | aNone : AttrVal
  | aOptions : List (Int × String) → AttrVal
deriving DecidableEq

/-- Python `str(...)` of an options list, e.g. `[(1, 'Books'), (2,
'Toys')]`; labels containing quotes are out of scope. -/
def pyReprOptions (opts : List (Int × String)) : String :=
  "[" ++ String.intercalate ", "
    (opts.map (fun p => "(" ++ toString p.1 ++ ", \x27" ++ p.2 ++ "\x27)")) ++ "]"

/-- Python `str(...)` of an attribute value as interpolated into the
attribute string. -/
def attrValText : AttrVal → String
  | .aStr s => s
  | .aBool b => if b then "True" else "False"
  | .aInt n => toString n
  | .aNone => "None"
  | .aOptions l => pyReprOptions l

/-- Left-pad a number with zeros to the given width. -/
def pad (w : Nat) (n : Nat) : String :=
  let s := toString n
  if s.length < w then String.mk (List.replicate (w - s.length) '0') ++ s else s

/-- Python `str(...)` of a field value as interpolated into
`value="..."`: dates print as ISO `YYYY-MM-DD`, `None` prints as the
text `None`.  The float case approximates `repr(float)` (unexercised by
any claim). -/
def pyValText : PyVal → String
  | .pStr s => s
  | .pInt n => toString n
  | .pFloat q => if q.den = 1 then toString q.num ++ ".0" else toString q
  | .pDate y m d => pad 4 y ++ "-" ++ pad 2 m ++ "-" ++ pad 2 d
  | .pNone => "None"

/-- Python `==` between an option value (an integer in every observed
caller) and the current field value: integers compare numerically, a
float compares numerically as well, and every other class compares
unequal. -/
def pyEqIntVal (n : Int) (v : PyVal) : Bool :=
  match v with
  | .pInt m => n == m
  | .pFloat q => decide ((n : Rat) = q)
  | _ => false

/-- The `css_class` keyword is renamed to `class` (`attributes['class']
= attributes.pop('css_class')`): the `css_class` entry is removed and
the dict assignment overwrites an existing `class` entry in place, or
otherwise adds one at the end of the insertion order — exactly what
`setKey` does. -/
def renameCssClass (attributes : List (String × AttrVal)) : List (String × AttrVal) :=
  match lookupKey attributes "css_class" with
  | some v => setKey (eraseKey attributes "css_class") "class" v
  | none => attributes

/-- The boolean-attribute loop of `generate_tag` (lines 135-141).  A
true boolean becomes the attribute's own name; `autocomplete` with
`False` becomes `"off"`.  The source's third branch (`autocomplete` with
`True` becomes `"on"`) is unreachable: the first branch has already
rewritten every true boolean, `autocomplete` included. -/
def boolAttrFix (p : String × AttrVal) : String × AttrVal :=
  match p with
  | (k, .aBool true) => (k, .aStr k)
  | (k, .aBool false) => if k = "autocomplete" then (k, .aStr "off") else (k, .aBool false)
  | q => q

/-- The tag type chosen from the column kind (lines 120-128): dates get
a date input, non-foreign-key integers and floats a number input,
foreign keys a select element, everything else a text input. -/
def tagTypeOf (k : ColKind) : String :=
  if k = ColKind.dateT then "date"
  else if k = ColKind.integerT then "number"
  else if k = ColKind.floatT then "number"
  else if k = ColKind.foreignKey then "select"
  else "text"

/-- `MyForm.html_tag`'s inner `generate_tag(name, **attributes)`: render
one field.  Returns `none` on a `KeyError` (unknown column) or
`AttributeError` (missing form attribute).  Note the source builds the
serialized attribute string *before* popping `options`, so the options
list is also serialized as an `options="..."` attribute on a select
element; and the implicit leading option is `(0, "")`, rendered with
`value="0"`. -/
def generate_tag (cols : List (String × ColKind)) (fields : List (String × PyVal))
    (name : String) (attributes : List (String × AttrVal)) : Option String :=
  match lookupKey cols name, lookupKey fields name with
  | some column_type, some value =>
    let tag_type := tagTypeOf column_type
    let attrs1 := renameCssClass attributes
    let attrs2 := attrs1.map boolAttrFix
    let field_name0 := if name = "id" then "record_id" else name
    let field_name :=
      match lookupKey attrs2 "i" with
      | some v => field_name0 ++ "-" ++ attrValText v
      | none => field_name0
    let attrs3 :=
      match lookupKey attrs2 "i" with
      | some _ => eraseKey attrs2 "i"
      | none => attrs2
    let attrs := String.intercalate " "
      ((attrs3.filter (fun p => decide (p.2 ≠ AttrVal.aNone))).map
        (fun p => p.1 ++ "=\x22" ++ attrValText p.2 ++ "\x22"))
    if tag_type = "select" then
      let opts : List (Int × String) :=
        match lookupKey attrs3 "options" with
        | some (AttrVal.aOptions l) => l
        | _ => []
      let options := (0, "") :: opts
      let options_html := String.join (options.map (fun opt =>
        "<option value=\x22" ++ toString opt.1 ++ "\x22 "
          ++ (if pyEqIntVal opt.1 value then "selected" else "")
          ++ ">" ++ opt.2 ++ "</option>"))
      some ("<select name=\x22" ++ field_name ++ "\x22 " ++ attrs ++ ">"
        ++ options_html ++ "</select>")
    else
      some ("<input type=\x22" ++ tag_type ++ "\x22 name=\x22" ++ field_name
        ++ "\x22 value=\x22" ++ pyValText value ++ "\x22 " ++ attrs ++ ">")
  | _, _ => none

/-- Occurrence of a pattern at the head of a character list. -/
def leadsWith : List Char → List Char → Bool
  | [], _ => true
  | _ :: _, [] => false
  | a :: as, b :: bs => a == b && leadsWith as bs

/-- Occurrence of a pattern anywhere in a character list. -/
def containsSeq (pat : List Char) : List Char → Bool
  | [] => leadsWith pat []
  | c :: rest => leadsWith pat (c :: rest) || containsSeq pat rest

/-- Substring test on strings (used to state facts about rendered
markup). -/
def strHas (s pat : String) : Bool :=
  containsSeq pat.toList s.toList

/-! ### Association-list lemmas -/

theorem lookupKey_setKey_self {α : Type} (m : List (String × α)) (k : String) (v : α) :
    lookupKey (setKey m k v) k = some v := by
  induction m with
  | nil => simp [setKey, lookupKey]
  | cons p rest ih =>
    obtain ⟨a, b⟩ := p
    by_cases h : a = k
    · simp [setKey, h, lookupKey]
    · simp [setKey, h, lookupKey, ih]

theorem lookupKey_setKey_ne {α : Type} (m : List (String × α)) (k k' : String) (v : α)
    (h : k ≠ k') : lookupKey (setKey m k v) k' = lookupKey m k' := by
  induction m with
  | nil => simp [setKey, lookupKey, h]
  | cons p rest ih =>
    obtain ⟨a, b⟩ := p
    by_cases ha : a = k
    · subst ha
      simp [setKey, lookupKey, h]
    · simp [setKey, ha, lookupKey, ih]

theorem keys_setKey_of_mem {α : Type} (m : List (String × α)) (k : String) (v : α)
    (h : k ∈ m.map Prod.fst) : (setKey m k v).map Prod.fst = m.map Prod.fst := by
  induction m with
  | nil => simp at h
  | cons p rest ih =>
    obtain ⟨a, b⟩ := p
    by_cases ha : a = k
    · simp [setKey, ha]
    · have hk : k ∈ rest.map Prod.fst := by
        rcases List.mem_cons.mp h with he | ht
        · exact absurd he.symm ha
        · exact ht
      simp [setKey, ha, ih hk]

theorem lookupKey_of_mem_nodup {α : Type} (m : List (String × α)) (k : String) (v : α)
    (hm : (k, v) ∈ m) (hn : (m.map Prod.fst).Nodup) : lookupKey m k = some v := by
  induction m with
  | nil => simp at hm
  | cons p rest ih =>
    obtain ⟨a, b⟩ := p
    have hn' : a ∉ rest.map Prod.fst ∧ (rest.map Prod.fst).Nodup := List.nodup_cons.mp hn
    rcases List.mem_cons.mp hm with he | ht
    · obtain ⟨rfl, rfl⟩ := Prod.mk.injEq .. ▸ he
      simp [lookupKey]
    · by_cases ha : a = k
      · exact absurd (ha ▸ List.mem_map_of_mem Prod.fst ht) hn'.1
      · simpa [lookupKey, ha] using ih ht hn'.2

/-! ### Structure of `post` -/

theorem post_append (xs ys : List (String × ColKind)) (req : Req) (i : Int) (st : BindState) :
    post (xs ++ ys) req i st =
      match post xs req i st with
      | .ok st1 => post ys req i st1
      | .error e => .error e := by
  induction xs generalizing st with
  | nil => simp [post]
  | cons c rest ih =>
    simp only [List.cons_append, post]
    cases postStep req i st c with
    | ok st1 => exact ih st1
    | error e => rfl

theorem postStep_lookup_ne (req : Req) (i : Int) (st : BindState) (col : String × ColKind)
    (st' : BindState) (c : String) (h : postStep req i st col = .ok st') (hne : col.1 ≠ c) :
    lookupKey st'.fields c = lookupKey st.fields c ∧
      lookupKey st'.inst c = lookupKey st.inst c := by
  unfold postStep at h
  by_cases hid : col.1 = "id"
  · rw [if_pos hid] at h
    by_cases ht : truthyOpt (lookupKey req "record_id") = true
    · rw [if_pos ht] at h
      cases h
      refine ⟨?_, rfl⟩
      exact lookupKey_setKey_ne _ _ _ _ (hid ▸ hne)
    · rw [if_neg ht] at h
      cases h
      exact ⟨rfl, rfl⟩
  · rw [if_neg hid] at h
    cases hcr : coerceRequest col.2 (lookupKey req (htmlName col.1 i)) with
    | ok v =>
      rw [hcr] at h
      cases h
      exact ⟨lookupKey_setKey_ne _ _ _ _ hne, lookupKey_setKey_ne _ _ _ _ hne⟩
    | error e =>
      rw [hcr] at h
      cases h

theorem post_lookup_not_mem (cols : List (String × ColKind)) (req : Req) (i : Int)
    (st st' : BindState) (c : String) (h : post cols req i st = .ok st')
    (hc : c ∉ cols.map Prod.fst) :
    lookupKey st'.fields c = lookupKey st.fields c ∧
      lookupKey st'.inst c = lookupKey st.inst c := by
  induction cols generalizing st with
  | nil =>
    cases h
    exact ⟨rfl, rfl⟩
  | cons col rest ih =>
    unfold post at h
    cases hps : postStep req i st col with
    | ok st1 =>
      rw [hps] at h
      have hne : col.1 ≠ c := fun he => hc (by simp [← he])
      have h1 := postStep_lookup_ne req i st col st1 c hps hne
      have h2 := ih st1 h (fun hm => hc (by simp [hm]))
      exact ⟨h2.1.trans h1.1, h2.2.trans h1.2⟩
    | error e =>
      rw [hps] at h
      cases h

theorem postStep_inst_id (req : Req) (i : Int) (st : BindState) (col : String × ColKind)
    (st' : BindState) (h : postStep req i st col = .ok st') :
    lookupKey st'.inst "id" = lookupKey st.inst "id" := by
  unfold postStep at h
  by_cases hid : col.1 = "id"
  · rw [if_pos hid] at h
    by_cases ht : truthyOpt (lookupKey req "record_id") = true
    · rw [if_pos ht] at h
      cases h
      rfl
    · rw [if_neg ht] at h
      cases h
      rfl
  · rw [if_neg hid] at h
    cases hcr : coerceRequest col.2 (lookupKey req (htmlName col.1 i)) with
    | ok v =>
      rw [hcr] at h
      cases h
      exact lookupKey_setKey_ne _ _ _ _ hid
    | error e =>
      rw [hcr] at h
      cases h

theorem post_inst_id (cols : List (String × ColKind)) (req : Req) (i : Int)
    (st st' : BindState) (h : post cols req i st = .ok st') :
    lookupKey st'.inst "id" = lookupKey st.inst "id" := by
  induction cols generalizing st with
  | nil =>
    cases h
    rfl
  | cons col rest ih =>
    unfold post at h
    cases hps : postStep req i st col with
    | ok st1 =>
      rw [hps] at h
      exact (ih st1 h).trans (postStep_inst_id req i st col st1 hps)
    | error e =>
      rw [hps] at h
      cases h

theorem not_mem_parts_of_nodup {c : String} {pre suf : List String}
    (hnd : (pre ++ c :: suf).Nodup) : c ∉ pre ∧ c ∉ suf := by
  obtain ⟨h1, h2, hdisj⟩ := List.nodup_append.mp hnd
  exact ⟨fun hm => hdisj hm (List.mem_cons_self c suf), (List.nodup_cons.mp h2).1⟩

theorem post_lookup_of_mem (cols : List (String × ColKind)) (req : Req) (i : Int)
    (st st' : BindState) (c : String) (k : ColKind)
    (hnd : (cols.map Prod.fst).Nodup) (hmem : (c, k) ∈ cols) (hcid : c ≠ "id")
    (h : post cols req i st = .ok st') :
    ∃ v, coerceRequest k (lookupKey req (htmlName c i)) = Except.ok v ∧
      lookupKey st'.fields c = some v ∧ lookupKey st'.inst c = some v := by
  obtain ⟨pre, suf, rfl⟩ := List.append_of_mem hmem
  have hnd' : (pre.map Prod.fst ++ c :: suf.map Prod.fst).Nodup := by simpa using hnd
  obtain ⟨-, hsuf⟩ := not_mem_parts_of_nodup hnd'
  rw [post_append] at h
  cases hpre : post pre req i st with
  | error e =>
    rw [hpre] at h
    cases h
  | ok st1 =>
    rw [hpre] at h
    unfold post postStep at h
    rw [if_neg hcid] at h
    cases hcr : coerceRequest k (lookupKey req (htmlName c i)) with
    | error e =>
      rw [hcr] at h
      cases h
    | ok v =>
      rw [hcr] at h
      have hrest := post_lookup_not_mem suf req i _ st' c h hsuf
      refine ⟨v, rfl, ?_, ?_⟩
      · rw [hrest.1]
        exact lookupKey_setKey_self _ _ _
      · rw [hrest.2]
        exact lookupKey_setKey_self _ _ _

theorem post_error_of_mem (cols : List (String × ColKind)) (req : Req) (i : Int)
    (st : BindState) (c : String) (k : ColKind) (e : BindError)
    (hmem : (c, k) ∈ cols) (hcid : c ≠ "id")
    (herr : coerceRequest k (lookupKey req (htmlName c i)) = .error e) :
    ∃ e', post cols req i st = Except.error e' := by
  induction cols generalizing st with
  | nil => simp at hmem
  | cons col rest ih =>
    rcases List.mem_cons.mp hmem with he | ht
    · subst he
      unfold post postStep
      rw [if_neg hcid, herr]
      exact ⟨e, rfl⟩
    · unfold post
      cases hps : postStep req i st col with
      | ok st1 =>
        obtain ⟨e', he'⟩ := ih st1 ht
        exact ⟨e', he'⟩
      | error e' => exact ⟨e', rfl⟩

theorem post_lookup_id (cols : List (String × ColKind)) (req : Req) (i : Int)
    (st st' : BindState) (k : ColKind)
    (hnd : (cols.map Prod.fst).Nodup) (hmem : ("id", k) ∈ cols)
    (h : post cols req i st = .ok st') :
    lookupKey st'.fields "id" =
      (if truthyOpt (lookupKey req "record_id")
       then some (strOrNone (lookupKey req (htmlName "record_id" i)))
       else lookupKey st.fields "id") := by
  obtain ⟨pre, suf, rfl⟩ := List.append_of_mem hmem
  have hnd' : (pre.map Prod.fst ++ "id" :: suf.map Prod.fst).Nodup := by simpa using hnd
  obtain ⟨hpre', hsuf⟩ := not_mem_parts_of_nodup hnd'
  rw [post_append] at h
  cases hpre : post pre req i st with
  | error e =>
    rw [hpre] at h
    cases h
  | ok st1 =>
    rw [hpre] at h
    have hpref := post_lookup_not_mem pre req i st st1 "id" hpre hpre'
    unfold post postStep at h
    rw [if_pos rfl] at h
    by_cases ht : truthyOpt (lookupKey req "record_id") = true
    · rw [if_pos ht] at h
      have hrest := post_lookup_not_mem suf req i _ st' "id" h hsuf
      rw [if_pos ht, hrest.1]
      exact lookupKey_setKey_self _ _ _
    · rw [if_neg ht] at h
      have hrest := post_lookup_not_mem suf req i _ st' "id" h hsuf
      rw [if_neg ht, hrest.1]
      exact hpref.1

theorem postStep_keys (req : Req) (i : Int) (st : BindState) (col : String × ColKind)
    (st' : BindState) (h : postStep req i st col = .ok st')
    (hc : col.1 ∈ st.fields.map Prod.fst) :
    st'.fields.map Prod.fst = st.fields.map Prod.fst := by
  unfold postStep at h
  by_cases hid : col.1 = "id"
  · rw [if_pos hid] at h
    by_cases ht : truthyOpt (lookupKey req "record_id") = true
    · rw [if_pos ht] at h
      cases h
      exact keys_setKey_of_mem _ _ _ (hid ▸ hc)
    · rw [if_neg ht] at h
      cases h
      rfl
  · rw [if_neg hid] at h
    cases hcr : coerceRequest col.2 (lookupKey req (htmlName col.1 i)) with
    | ok v =>
      rw [hcr] at h
      cases h
      exact keys_setKey_of_mem _ _ _ hc
    | error e =>
      rw [hcr] at h
      cases h

theorem post_keys (cols : List (String × ColKind)) (req : Req) (i : Int)
    (st st' : BindState) (h : post cols req i st = .ok st')
    (hc : ∀ p ∈ cols, p.1 ∈ st.fields.map Prod.fst) :
    st'.fields.map Prod.fst = st.fields.map Prod.fst := by
  induction cols generalizing st with
  | nil =>
    cases h
    rfl
  | cons col rest ih =>
    unfold post at h
    cases hps : postStep req i st col with
    | ok st1 =>
      rw [hps] at h
      have hk1 := postStep_keys req i st col st1 hps (hc col (List.mem_cons_self _ _))
      have := ih st1 h (fun p hp => hk1 ▸ hc p (List.mem_cons_of_mem _ hp))
      exact this.trans hk1
    | error e =>
      rw [hps] at h
      cases h

/-! ### Structure of `get` -/

theorem get_append (xs ys : List (String × ColKind)) (inst fields : List (String × PyVal)) :
    get (xs ++ ys) inst fields =
      match get xs inst fields with
      | .ok fields1 => get ys inst fields1
      | .error e => .error e := by
  induction xs generalizing fields with
  | nil => simp [get]
  | cons c rest ih =>
    simp only [List.cons_append, get]
    cases getStep inst fields c with
    | ok fields1 => exact ih fields1
    | error e => rfl

theorem getStep_lookup_ne (inst fields : List (String × PyVal)) (col : String × ColKind)
    (fields' : List (String × PyVal)) (c : String)
    (h : getStep inst fields col = .ok fields') (hne : col.1 ≠ c) :
    lookupKey fields' c = lookupKey fields c := by
  unfold getStep at h
  cases hl : lookupKey inst col.1 with
  | none =>
    rw [hl] at h
    cases h
  | some value =>
    cases hci : coerceInstance col.2 value with
    | ok v =>
      simp only [hl, hci, Except.ok.injEq] at h
      rw [← h]
      exact lookupKey_setKey_ne _ _ _ _ hne
    | error e =>
      simp [hl, hci] at h

theorem get_lookup_not_mem (cols : List (String × ColKind))
    (inst fields fields' : List (String × PyVal)) (c : String)
    (h : get cols inst fields = .ok fields') (hc : c ∉ cols.map Prod.fst) :
    lookupKey fields' c = lookupKey fields c := by
  induction cols generalizing fields with
  | nil =>
    cases h
    rfl
  | cons col rest ih =>
    unfold get at h
    cases hps : getStep inst fields col with
    | ok fields1 =>
      rw [hps] at h
      have hne : col.1 ≠ c := fun he => hc (by simp [← he])
      have h1 := getStep_lookup_ne inst fields col fields1 c hps hne
      have h2 := ih fields1 h (fun hm => hc (by simp [hm]))
      exact h2.trans h1
    | error e =>
      rw [hps] at h
      cases h

theorem get_lookup_of_mem (cols : List (String × ColKind))
    (inst fields fields' : List (String × PyVal)) (c : String) (k : ColKind) (z : PyVal)
    (hnd : (cols.map Prod.fst).Nodup) (hmem : (c, k) ∈ cols)
    (hz : lookupKey inst c = some z) (h : get cols inst fields = .ok fields') :
    ∃ v, coerceInstance k z = Except.ok v ∧ lookupKey fields' c = some v := by
  obtain ⟨pre, suf, rfl⟩ := List.append_of_mem hmem
  have hnd' : (pre.map Prod.fst ++ c :: suf.map Prod.fst).Nodup := by simpa using hnd
  obtain ⟨-, hsuf⟩ := not_mem_parts_of_nodup hnd'
  rw [get_append] at h
  cases hpre : get pre inst fields with
  | error e =>
    rw [hpre] at h
    cases h
  | ok fields1 =>
    rw [hpre] at h
    cases hci : coerceInstance k z with
    | error e =>
      simp [get, getStep, hz, hci] at h
    | ok v =>
      simp only [get, getStep, hz, hci] at h
      have hrest := get_lookup_not_mem suf inst _ fields' c h hsuf
      refine ⟨v, rfl, ?_⟩
      rw [hrest]
      exact lookupKey_setKey_self _ _ _

theorem getStep_keys (inst fields : List (String × PyVal)) (col : String × ColKind)
    (fields' : List (String × PyVal)) (h : getStep inst fields col = .ok fields')
    (hc : col.1 ∈ fields.map Prod.fst) :
    fields'.map Prod.fst = fields.map Prod.fst := by
  unfold getStep at h
  cases hl : lookupKey inst col.1 with
  | none =>
    rw [hl] at h
    cases h
  | some value =>
    cases hci : coerceInstance col.2 value with
    | ok v =>
      simp only [hl, hci, Except.ok.injEq] at h
      rw [← h]
      exact keys_setKey_of_mem _ _ _ hc
    | error e =>
      simp [hl, hci] at h

theorem get_keys (cols : List (String × ColKind)) (inst fields fields' : List (String × PyVal))
    (h : get cols inst fields = .ok fields')
    (hc : ∀ p ∈ cols, p.1 ∈ fields.map Prod.fst) :
    fields'.map Prod.fst = fields.map Prod.fst := by
  induction cols generalizing fields with
  | nil =>
    cases h
    rfl
  | cons col rest ih =>
    unfold get at h
    cases hps : getStep inst fields col with
    | ok fields1 =>
      rw [hps] at h
      have hk1 := getStep_keys inst fields col fields1 hps (hc col (List.mem_cons_self _ _))
      have := ih fields1 h (fun p hp => hk1 ▸ hc p (List.mem_cons_of_mem _ hp))
      exact this.trans hk1
    | error e =>
      rw [hps] at h
      cases h

theorem keys_create_attributes (cols : List (String × ColKind)) :
    (create_attributes_from_model cols).map Prod.fst = cols.map Prod.fst := by
  induction cols with
  | nil => rfl
  | cons c rest ih => simp [create_attributes_from_model]

/-! ### Claims -/

/-- C1 (counterexample): with an index supplied, a request holding the
identity value only under the suffixed key `record_id-2` stores nothing
on the form's `id` field, because the guard on line 48 reads the
unsuffixed key `record_id`; the claimed store does not happen. -/
theorem c1_counterexample :
    post [("id", ColKind.integerT)] [("record_id-2", "5")] 2
        ⟨[("id", PyVal.pInt 0)], [("id", PyVal.pInt 0)]⟩ =
      Except.ok ⟨[("id", PyVal.pInt 0)], [("id", PyVal.pInt 0)]⟩ ∧
    lookupKey ([("id", PyVal.pInt 0)] : List (String × PyVal)) "id" ≠ some (PyVal.pStr "5") :=
  ⟨rfl, by decide⟩

/-- C1 (amended): during `post` the instance's `id` attribute is never
written; the form's `id` field is rewritten exactly when the request
holds a truthy value under the *unsuffixed* key `record_id`, and the
value then stored is the raw lookup of the key `record_id-<i>` when an
index is supplied (`record_id` otherwise), stored as `None` when that
key is absent. -/
theorem c1_amended (cols : List (String × ColKind)) (req : Req) (i : Int)
    (st st' : BindState) (k : ColKind)
    (hnd : (cols.map Prod.fst).Nodup) (hmem : ("id", k) ∈ cols)
    (h : post cols req i st = Except.ok st') :
    lookupKey st'.inst "id" = lookupKey st.inst "id" ∧
    lookupKey st'.fields "id" =
      (if truthyOpt (lookupKey req "record_id")
       then some (strOrNone (lookupKey req (htmlName "record_id" i)))
       else lookupKey st.fields "id") :=
  ⟨post_inst_id cols req i st st' h, post_lookup_id cols req i st st' k hnd hmem h⟩

/-- C1 witness: the amended statement instantiated at an indexed call
whose unsuffixed `record_id` is truthy; the suffixed value `"9"` lands
on the form's `id` and the instance's `id` stays `0`. -/
theorem c1_amended_witness :
    lookupKey (BindState.inst ⟨[("id", PyVal.pStr "9")], [("id", PyVal.pInt 0)]⟩) "id" =
        lookupKey (BindState.inst ⟨[("id", PyVal.pInt 0)], [("id", PyVal.pInt 0)]⟩) "id" ∧
    lookupKey (BindState.fields ⟨[("id", PyVal.pStr "9")], [("id", PyVal.pInt 0)]⟩) "id" =
      (if truthyOpt (lookupKey ([("record_id", "5"), ("record_id-2", "9")] : Req) "record_id")
       then some (strOrNone (lookupKey ([("record_id", "5"), ("record_id-2", "9")] : Req)
         (htmlName "record_id" 2)))
       else lookupKey (BindState.fields ⟨[("id", PyVal.pInt 0)], [("id", PyVal.pInt 0)]⟩) "id") :=
  c1_amended [("id", ColKind.integerT)] [("record_id", "5"), ("record_id-2", "9")] 2
    ⟨[("id", PyVal.pInt 0)], [("id", PyVal.pInt 0)]⟩
    ⟨[("id", PyVal.pStr "9")], [("id", PyVal.pInt 0)]⟩ ColKind.integerT
    (by decide) (by decide) rfl

/-- C3 (counterexample): the claim fails for an Integer column named
`id`: with an empty request, `post` takes the identity branch and
leaves the construction-time value `0` in place instead of storing an
absent value. -/
theorem c3_counterexample :
    post [("id", ColKind.integerT)] [] (-1)
        ⟨[("id", PyVal.pInt 0)], [("id", PyVal.pInt 0)]⟩ =
      Except.ok ⟨[("id", PyVal.pInt 0)], [("id", PyVal.pInt 0)]⟩ ∧
    lookupKey ([("id", PyVal.pInt 0)] : List (String × PyVal)) "id" ≠ some PyVal.pNone :=
  ⟨rfl, by decide⟩

/-- C3 (amended): for every Integer column other than the identity
column `id`, a `post` whose request lacks the column's key stores the
absent value `None` (not `0`, not the empty string) on both the form's
field-value mapping and the instance. -/
theorem c3_amended (cols : List (String × ColKind)) (req : Req) (i : Int)
    (st st' : BindState) (c : String)
    (hnd : (cols.map Prod.fst).Nodup) (hmem : (c, ColKind.integerT) ∈ cols) (hcid : c ≠ "id")
    (hreq : lookupKey req (htmlName c i) = none)
    (h : post cols req i st = Except.ok st') :
    lookupKey st'.fields c = some PyVal.pNone ∧ lookupKey st'.inst c = some PyVal.pNone := by
  obtain ⟨v, hv, hf, hi2⟩ :=
    post_lookup_of_mem cols req i st st' c ColKind.integerT hnd hmem hcid h
  rw [hreq] at hv
  injection hv with hv2
  rw [← hv2] at hf hi2
  exact ⟨hf, hi2⟩

/-- C3 witness: a non-identity Integer column `qty` bound from an empty
request ends up absent on both sides. -/
theorem c3_amended_witness :
    lookupKey ([("qty", PyVal.pNone)] : List (String × PyVal)) "qty" = some PyVal.pNone ∧
    lookupKey ([("qty", PyVal.pNone)] : List (String × PyVal)) "qty" = some PyVal.pNone :=
  c3_amended [("qty", ColKind.integerT)] [] (-1)
    ⟨[("qty", PyVal.pInt 0)], [("qty", PyVal.pInt 0)]⟩
    ⟨[("qty", PyVal.pNone)], [("qty", PyVal.pNone)]⟩ "qty"
    (by decide) (by decide) (by decide) rfl rfl

/-- C5: a Date column whose request value is any nonempty text that
does not conform to the `"%Y-%m-%d"` format — such as `"not-a-date"` —
makes `post` fail with an error (Python raises `ValueError` out of
`strptime`); no state is returned, so nothing is silently stored.  The
empty string is excluded: the spec's absent-value rule applies to it
and the source coerces it to `None` without raising. -/
theorem c5_malformed_date_errors (cols : List (String × ColKind)) (req : Req) (i : Int)
    (st : BindState) (c : String) (s : String)
    (hmem : (c, ColKind.dateT) ∈ cols) (hcid : c ≠ "id")
    (hreq : lookupKey req (htmlName c i) = some s)
    (hs : s ≠ "") (hparse : pyStrptimeDate s = none) :
    ∃ e, post cols req i st = Except.error e := by
  apply post_error_of_mem cols req i st c ColKind.dateT BindError.parseError hmem hcid
  rw [hreq]
  simp [coerceRequest, hs, hparse]

/-- C5 witness: a one-column form with a Date column bound from the
request value `"not-a-date"` fails. -/
theorem c5_witness :
    ∃ e, post [("d", ColKind.dateT)] [("d", "not-a-date")] (-1)
        ⟨[("d", PyVal.pInt 0)], [("d", PyVal.pInt 0)]⟩ = Except.error e :=
  c5_malformed_date_errors [("d", ColKind.dateT)] [("d", "not-a-date")] (-1)
    ⟨[("d", PyVal.pInt 0)], [("d", PyVal.pInt 0)]⟩ "d" "not-a-date"
    (by decide) (by decide) rfl (by decide) rfl

/-- C6: when an index `i > -1` is supplied, a non-identity column is
bound from the request value found under the suffixed key `<name>-<i>`
alone: the stored value (on both form and instance) is the coercion of
that single lookup, so an entry under the unsuffixed column name is
ignored. -/
theorem c6_indexed_key_only (cols : List (String × ColKind)) (req : Req) (i : Int)
    (st st' : BindState) (c : String) (k : ColKind)
    (hnd : (cols.map Prod.fst).Nodup) (hmem : (c, k) ∈ cols) (hcid : c ≠ "id")
    (hi : (-1 : Int) < i) (h : post cols req i st = Except.ok st') :
    ∃ v, coerceRequest k (lookupKey req (c ++ "-" ++ toString i)) = Except.ok v ∧
      lookupKey st'.fields c = some v ∧ lookupKey st'.inst c = some v := by
  have hmain := post_lookup_of_mem cols req i st st' c k hnd hmem hcid h
  simpa only [htmlName, if_pos hi] using hmain

/-- C6 witness: `bind_from_request({"quantity": "9", "quantity-2": "7"},
instance, index=2)` stores `7` (from the suffixed key), not `9`. -/
theorem c6_witness :
    ∃ v, coerceRequest ColKind.integerT
        (lookupKey ([("quantity", "9"), ("quantity-2", "7")] : Req)
          ("quantity" ++ "-" ++ toString (2 : Int))) = Except.ok v ∧
      lookupKey ([("quantity", PyVal.pInt 7)] : List (String × PyVal)) "quantity" = some v ∧
      lookupKey ([("quantity", PyVal.pInt 7)] : List (String × PyVal)) "quantity" = some v :=
  c6_indexed_key_only [("quantity", ColKind.integerT)] [("quantity", "9"), ("quantity-2", "7")] 2
    ⟨[("quantity", PyVal.pInt 0)], [("quantity", PyVal.pInt 0)]⟩
    ⟨[("quantity", PyVal.pInt 7)], [("quantity", PyVal.pInt 7)]⟩ "quantity" ColKind.integerT
    (by decide) (by decide) (by decide) (by decide) rfl

/-- C10: in an unindexed `post` whose request holds a truthy value `s`
under `record_id`, the identity value is stored on the form as the raw
string `s`, with no integer coercion, while every other Integer column's
request string is coerced to an integer before being stored. -/
theorem c10_raw_id (cols : List (String × ColKind)) (req : Req) (st st' : BindState)
    (k : ColKind) (s : String)
    (hnd : (cols.map Prod.fst).Nodup) (hmem : ("id", k) ∈ cols)
    (hreq : lookupKey req "record_id" = some s) (hs : s ≠ "")
    (h : post cols req (-1) st = Except.ok st') :
    lookupKey st'.fields "id" = some (PyVal.pStr s) ∧
    (∀ c t n, (c, ColKind.integerT) ∈ cols → c ≠ "id" → lookupKey req c = some t →
      t ≠ "" → pyParseInt t = some n → lookupKey st'.fields c = some (PyVal.pInt n)) := by
  constructor
  · have hid := post_lookup_id cols req (-1) st st' k hnd hmem h
    have ht : truthyOpt (lookupKey req "record_id") = true := by
      rw [hreq]
      simp [truthyOpt, hs]
    rw [hid, if_pos ht]
    have hname : htmlName "record_id" (-1) = "record_id" := if_neg (lt_irrefl (-1 : Int))
    rw [hname, hreq]
    rfl
  · intro c t n hc hcid hrc ht hpt
    obtain ⟨v, hv, hf, -⟩ :=
      post_lookup_of_mem cols req (-1) st st' c ColKind.integerT hnd hc hcid h
    have hname : htmlName c (-1) = c := if_neg (lt_irrefl (-1 : Int))
    rw [hname, hrc] at hv
    have hcr : coerceRequest ColKind.integerT (some t) = Except.ok (PyVal.pInt n) := by
      simp [coerceRequest, ht, hpt]
    rw [hcr] at hv
    injection hv with hv2
    rw [← hv2] at hf
    exact hf

/-- C10 witness: with `record_id="5"` and `n="7"`, the form's `id`
holds the raw string `"5"` while the Integer column `n` holds the
integer `7`. -/
theorem c10_witness :
    lookupKey ([("id", PyVal.pStr "5"), ("n", PyVal.pInt 7)] : List (String × PyVal)) "id" =
        some (PyVal.pStr "5") ∧
    (∀ c t n, (c, ColKind.integerT) ∈
        ([("id", ColKind.integerT), ("n", ColKind.integerT)] : List (String × ColKind)) →
      c ≠ "id" → lookupKey ([("record_id", "5"), ("n", "7")] : Req) c = some t → t ≠ "" →
      pyParseInt t = some n →
      lookupKey ([("id", PyVal.pStr "5"), ("n", PyVal.pInt 7)] : List (String × PyVal)) c =
        some (PyVal.pInt n)) :=
  c10_raw_id [("id", ColKind.integerT), ("n", ColKind.integerT)] [("record_id", "5"), ("n", "7")]
    ⟨[("id", PyVal.pInt 0), ("n", PyVal.pInt 0)], [("id", PyVal.pInt 0), ("n", PyVal.pInt 0)]⟩
    ⟨[("id", PyVal.pStr "5"), ("n", PyVal.pInt 7)], [("id", PyVal.pInt 0), ("n", PyVal.pInt 7)]⟩
    ColKind.integerT "5" (by decide) (by decide) rfl (by decide) rfl

/-- C4: binding from an instance whose value for an
Integer/Float/Date/ForeignKey column is falsy (in particular the
language-level zero or empty equivalent `0`, `0.0` or `""`) stores the
absent value `None` on the form, never a numeric or date zero. -/
theorem c4_absent_on_falsy (cols : List (String × ColKind))
    (inst fields fields' : List (String × PyVal)) (c : String) (k : ColKind) (z : PyVal)
    (hnd : (cols.map Prod.fst).Nodup) (hmem : (c, k) ∈ cols)
    (hk : k = ColKind.integerT ∨ k = ColKind.floatT ∨ k = ColKind.dateT ∨ k = ColKind.foreignKey)
    (hz : lookupKey inst c = some z) (hzf : z.truthy = false)
    (h : get cols inst fields = Except.ok fields') :
    lookupKey fields' c = some PyVal.pNone := by
  obtain ⟨v, hv, hf⟩ := get_lookup_of_mem cols inst fields fields' c k z hnd hmem hz h
  have hcz : coerceInstance k z = Except.ok PyVal.pNone := by
    rcases hk with rfl | rfl | rfl | rfl
    · simp [coerceInstance, hzf]
    · simp [coerceInstance, hzf]
    · cases z <;> simp_all [coerceInstance, PyVal.truthy]
    · simp [coerceInstance, hzf]
  rw [hcz] at hv
  injection hv with hv2
  rw [← hv2] at hf
  exact hf

/-- C4 witness: an Integer column whose instance value is the integer
`0` binds to the absent value. -/
theorem c4_witness :
    lookupKey ([("n", PyVal.pNone)] : List (String × PyVal)) "n" = some PyVal.pNone :=
  c4_absent_on_falsy [("n", ColKind.integerT)] [("n", PyVal.pInt 0)] [("n", PyVal.pInt 0)]
    [("n", PyVal.pNone)] "n" ColKind.integerT (PyVal.pInt 0)
    (by decide) (by decide) (Or.inl rfl) rfl rfl rfl

/-- C8: for a String column, `get` stores the instance's string
unchanged and `generate_tag` then renders a text input whose `value`
attribute is exactly that string. -/
theorem c8_string_roundtrip (cols : List (String × ColKind))
    (inst fields fields' : List (String × PyVal)) (c : String) (s : String)
    (hnd : (cols.map Prod.fst).Nodup) (hmem : (c, ColKind.stringT) ∈ cols)
    (hz : lookupKey inst c = some (PyVal.pStr s))
    (h : get cols inst fields = Except.ok fields') :
    generate_tag cols fields' c [] =
      some ("<input type=\x22text\x22 name=\x22" ++ (if c = "id" then "record_id" else c)
        ++ "\x22 value=\x22" ++ s ++ "\x22 " ++ "" ++ ">") := by
  obtain ⟨v, hv, hf⟩ :=
    get_lookup_of_mem cols inst fields fields' c ColKind.stringT (PyVal.pStr s) hnd hmem hz h
  injection hv with hv2
  rw [← hv2] at hf
  have hcols : lookupKey cols c = some ColKind.stringT := lookupKey_of_mem_nodup cols c _ hmem hnd
  unfold generate_tag
  rw [hcols, hf]
  rfl

/-- C8 witness: the round trip at a concrete String column and
instance value `"hello"`. -/
theorem c8_witness :
    generate_tag [("title", ColKind.stringT)] [("title", PyVal.pStr "hello")] "title" [] =
      some "<input type=\x22text\x22 name=\x22title\x22 value=\x22hello\x22 >" :=
  (c8_string_roundtrip [("title", ColKind.stringT)] [("title", PyVal.pStr "hello")]
    [("title", PyVal.pStr "")] [("title", PyVal.pStr "hello")] "title" "hello"
    (by decide) (by decide) rfl rfl).trans (by rfl)

/-- C9: the field-value mapping's key list equals the column-descriptor
key list after construction, and both `post` and `get` preserve that
equality (they only ever `setattr` names drawn from the column set). -/
theorem c9_keys_invariant (cols : List (String × ColKind)) (req : Req) (i : Int)
    (inst : List (String × PyVal)) (st st' : BindState)
    (fields fields' : List (String × PyVal)) :
    (create_attributes_from_model cols).map Prod.fst = cols.map Prod.fst ∧
    (st.fields.map Prod.fst = cols.map Prod.fst → post cols req i st = Except.ok st' →
      st'.fields.map Prod.fst = cols.map Prod.fst) ∧
    (fields.map Prod.fst = cols.map Prod.fst → get cols inst fields = Except.ok fields' →
      fields'.map Prod.fst = cols.map Prod.fst) := by
  refine ⟨keys_create_attributes cols, fun hkeys h => ?_, fun hkeys h => ?_⟩
  · have hp := post_keys cols req i st st' h (fun p hp => by
      rw [hkeys]; exact List.mem_map_of_mem Prod.fst hp)
    rw [hp, hkeys]
  · have hg := get_keys cols inst fields fields' h (fun p hp => by
      rw [hkeys]; exact List.mem_map_of_mem Prod.fst hp)
    rw [hg, hkeys]

/-- C9 witness: the `post` conjunct instantiated at a two-column form;
the key list after binding still matches the column names. -/
theorem c9_witness :
    ([("id", PyVal.pInt 0), ("title", PyVal.pStr "x")] : List (String × PyVal)).map Prod.fst =
      ([("id", ColKind.integerT), ("title", ColKind.stringT)] :
        List (String × ColKind)).map Prod.fst :=
  by
  have hpost : post [("id", ColKind.integerT), ("title", ColKind.stringT)] [("title", "x")] (-1)
      ⟨[("id", PyVal.pInt 0), ("title", PyVal.pStr "")],
        [("id", PyVal.pInt 0), ("title", PyVal.pStr "")]⟩ =
      Except.ok ⟨[("id", PyVal.pInt 0), ("title", PyVal.pStr "x")],
        [("id", PyVal.pInt 0), ("title", PyVal.pStr "x")]⟩ := rfl
  exact (c9_keys_invariant [("id", ColKind.integerT), ("title", ColKind.stringT)] [("title", "x")]
    (-1) []
    ⟨[("id", PyVal.pInt 0), ("title", PyVal.pStr "")],
      [("id", PyVal.pInt 0), ("title", PyVal.pStr "")]⟩
    ⟨[("id", PyVal.pInt 0), ("title", PyVal.pStr "x")],
      [("id", PyVal.pInt 0), ("title", PyVal.pStr "x")]⟩
    [] []).2.1 rfl hpost

set_option maxRecDepth 10000 in
/-- C2 (counterexample): rendering the ForeignKey column `category_id`
with options `[(1, "Books"), (2, "Toys")]` and current value `2`
produces markup containing no empty-value option at all — so the
claimed implicit first option with empty value does not occur — while
the actual leading option renders as `value="0"` with an empty label,
followed by Books unselected and Toys selected. -/
theorem c2_counterexample :
    (generate_tag [("category_id", ColKind.foreignKey)] [("category_id", PyVal.pInt 2)]
        "category_id" [("options", AttrVal.aOptions [(1, "Books"), (2, "Toys")])]).map
        (fun s => strHas s "value=\x22\x22") = some false ∧
    (generate_tag [("category_id", ColKind.foreignKey)] [("category_id", PyVal.pInt 2)]
        "category_id" [("options", AttrVal.aOptions [(1, "Books"), (2, "Toys")])]).map
        (fun s => strHas s ("<option value=\x220\x22 ></option><option value=\x221\x22 >"
          ++ "Books</option><option value=\x222\x22 selected>Toys</option>")) = some true :=
  ⟨rfl, rfl⟩

/-- C2 (amended): rendering a ForeignKey column with a caller-supplied
options list produces a selection element whose option list is an
implicit first option with value `0` (rendered `value="0"`) and empty
label, followed by the supplied options in order, each marked selected
exactly when its value equals the current field value; the options list
is additionally serialized as an `options="..."` attribute because the
attribute string is built before the list is popped. -/
theorem c2_amended (cols : List (String × ColKind)) (fields : List (String × PyVal))
    (name : String) (opts : List (Int × String)) (v : PyVal)
    (hk : lookupKey cols name = some ColKind.foreignKey)
    (hv : lookupKey fields name = some v) :
    generate_tag cols fields name [("options", AttrVal.aOptions opts)] =
      some ("<select name=\x22" ++ (if name = "id" then "record_id" else name) ++ "\x22 "
        ++ ("options" ++ "=\x22" ++ pyReprOptions opts ++ "\x22")
        ++ ">"
        ++ String.join (((0, "") :: opts).map (fun opt =>
            "<option value=\x22" ++ toString opt.1 ++ "\x22 "
              ++ (if pyEqIntVal opt.1 v then "selected" else "")
              ++ ">" ++ opt.2 ++ "</option>"))
        ++ "</select>") := by
  unfold generate_tag
  rw [hk, hv]
  rfl

/-- C2 witness: the amended statement at the claim's own example,
reduced to the literal output markup. -/
theorem c2_amended_witness :
    generate_tag [("category_id", ColKind.foreignKey)] [("category_id", PyVal.pInt 2)]
        "category_id" [("options", AttrVal.aOptions [(1, "Books"), (2, "Toys")])] =
      some ("<select name=\x22category_id\x22 options=\x22[(1, \x27Books\x27), (2, \x27Toys\x27)]\x22>"
        ++ "<option value=\x220\x22 ></option><option value=\x221\x22 >Books</option>"
        ++ "<option value=\x222\x22 selected>Toys</option></select>") :=
  (c2_amended [("category_id", ColKind.foreignKey)] [("category_id", PyVal.pInt 2)]
    "category_id" [(1, "Books"), (2, "Toys")] (PyVal.pInt 2) rfl rfl).trans (by rfl)

/-- C7 (code evaluation): every true boolean attribute renders with
value equal to its own name, and this applies to `autocomplete` as
well: `autocomplete=True` renders as `autocomplete="autocomplete"`,
not as `autocomplete="on"` (the source's `"on"` branch is dead code
shadowed by the general boolean branch), while `autocomplete=False`
does render as `"off"`. -/
theorem c7_autocomplete_eval :
    generate_tag [("title", ColKind.stringT)] [("title", PyVal.pStr "abc")] "title"
        [("autocomplete", AttrVal.aBool true)] =
      some "<input type=\x22text\x22 name=\x22title\x22 value=\x22abc\x22 autocomplete=\x22autocomplete\x22>" ∧
    generate_tag [("title", ColKind.stringT)] [("title", PyVal.pStr "abc")] "title"
        [("autocomplete", AttrVal.aBool false)] =
      some "<input type=\x22text\x22 name=\x22title\x22 value=\x22abc\x22 autocomplete=\x22off\x22>" ∧
    generate_tag [("title", ColKind.stringT)] [("title", PyVal.pStr "abc")] "title"
        [("disabled", AttrVal.aBool true)] =
      some "<input type=\x22text\x22 name=\x22title\x22 value=\x22abc\x22 disabled=\x22disabled\x22>" :=
  ⟨rfl, rfl, rfl⟩

end MyForm
